import Mathlib

/-!
# Verification of the ConnectUAE data-cleaning pipeline

Shallow embedding of `clean_data_script.py`. Each table is a `List` of
records; timestamps are modelled as `Int` (seconds since an epoch, so the
pandas expression `total_seconds() / 60` becomes an exact rational
division), monetary amounts and data volumes as `ℚ`. Per the loader
boundary (spec §3/§6) the non-nullable columns (`activation_date`,
`usage_date`, `ticket_date`, `bill_date`, `outage_start_time`,
`outage_end_time`) are plain fields, while columns that may be missing
(`churn_date`, `data_usage_gb`, `bill_amount`, `payment_date`,
`resolution_date`, `outage_duration_mins`) are `Option`s; a pandas
comparison against `NaN`/`NaT` yields `False`, which the `opt*`
helpers reproduce. Columns the cleaning code never reads or writes
(`plan_name`, `monthly_charge`, `call_minutes`, ...) are omitted.
-/

structure Subscriber where
  subscriber_id : String
  city : String
  plan_type : String
  status : String
  activation_date : Int
  churn_date : Option Int
  deriving DecidableEq

structure UsageRecord where
  usage_id : String
  subscriber_id : String
  usage_date : Int
  data_usage_gb : Option ℚ
  outlier_flag : Bool := false
  deriving DecidableEq

structure BillingRecord where
  bill_id : String
  subscriber_id : String
  bill_date : Int
  due_date : Int
  bill_amount : Option ℚ
  payment_status : String
  payment_date : Option Int
  data_quality_flag : Bool := false
  deriving DecidableEq

structure Ticket where
  ticket_id : String
  subscriber_id : String
  ticket_date : Int
  ticket_category : String
  ticket_status : String
  resolution_date : Option Int
  data_quality_flag : Bool := false
  deriving DecidableEq

structure OutageRecord where
  outage_id : String
  affected_city : String
  outage_start_time : Int
  outage_end_time : Int
  outage_duration_mins : Option ℚ
  outlier_flag : Bool := false
  deriving DecidableEq

/-- The five in-memory tables threaded through every pipeline stage. -/
structure DataSet where
  subscribers : List Subscriber
  usage : List UsageRecord
  billing : List BillingRecord
  tickets : List Ticket
  outages : List OutageRecord
  deriving DecidableEq

/-! ## Pandas comparison semantics on nullable columns -/

/-- Pandas semantics of `x > c` on a nullable numeric column: `False` on `NaN`. -/
def optGtQ (x : Option ℚ) (c : ℚ) : Bool :=
  match x with
  | some v => decide (c < v)
  | none => false

/-- Pandas semantics of `x >= c` on a nullable numeric column: `False` on `NaN`. -/
def optGeQ (x : Option ℚ) (c : ℚ) : Bool :=
  match x with
  | some v => decide (c ≤ v)
  | none => false

/-- Pandas semantics of `x < y` on a nullable datetime column: `False` on `NaT`. -/
def optLtI (x : Option Int) (y : Int) : Bool :=
  match x with
  | some v => decide (v < y)
  | none => false

/-! ## Stage 1: `remove_duplicates` (pandas `drop_duplicates(subset, keep=first)`) -/

/-- Core of `drop_duplicates`: keep a row iff its key was not seen before. -/
def dropDupGo {α κ : Type} [DecidableEq κ] (key : α → κ) (seen : List κ) :
    List α → List α
  | [] => []
  | r :: rs =>
    if key r ∈ seen then dropDupGo key seen rs
    else r :: dropDupGo key (key r :: seen) rs

/-- The pandas call `df.drop_duplicates(subset=[key], keep=first)`. -/
def dropDuplicates {α κ : Type} [DecidableEq κ] (key : α → κ) (l : List α) :
    List α :=
  dropDupGo key [] l

/-- Stage 1 of the pipeline: deduplicate each table on its primary key. -/
def remove_duplicates (d : DataSet) : DataSet :=
  { d with
    subscribers := dropDuplicates Subscriber.subscriber_id d.subscribers
    usage := dropDuplicates UsageRecord.usage_id d.usage
    billing := dropDuplicates BillingRecord.bill_id d.billing
    tickets := dropDuplicates Ticket.ticket_id d.tickets
    outages := dropDuplicates OutageRecord.outage_id d.outages }

/-! ## Stage 2: `standardize_labels` (pandas `Series.replace(dict)`) -/

/-- The pandas call `Series.replace(mapping)` on one cell: exact-match lookup, pass-through
when the value is not a key of the mapping. -/
def applyMapping (m : List (String × String)) (v : String) : String :=
  match m.find? (fun p => p.1 == v) with
  | some p => p.2
  | none => v

def plan_type_mapping : List (String × String) :=
  [("prepaid", "Prepaid"), ("PREPAID", "Prepaid"), ("Pre-paid", "Prepaid"),
   ("postpaid", "Postpaid"), ("POSTPAID", "Postpaid"), ("Post-paid", "Postpaid")]

def city_mapping : List (String × String) :=
  [("AbuDhabi", "Abu Dhabi"), ("Abu-Dhabi", "Abu Dhabi"), ("AD", "Abu Dhabi"),
   ("dubai", "Dubai"), ("DUBAI", "Dubai")]

def status_mapping : List (String × String) :=
  [("resolved", "Resolved"), ("RESOLVED", "Resolved"), ("Closed", "Resolved"),
   ("open", "Open"), ("OPEN", "Open")]

/-- Canonicalization of one subscriber row (`plan_type` and `city`). -/
def canonSubscriber (s : Subscriber) : Subscriber :=
  { s with
    plan_type := applyMapping plan_type_mapping s.plan_type
    city := applyMapping city_mapping s.city }

/-- Canonicalization of one ticket row (`ticket_status`). -/
def canonTicket (t : Ticket) : Ticket :=
  { t with ticket_status := applyMapping status_mapping t.ticket_status }

/-- Stage 2 of the pipeline: rewrite categorical labels to canonical forms. -/
def standardize_labels (d : DataSet) : DataSet :=
  { d with
    subscribers := d.subscribers.map canonSubscriber
    tickets := d.tickets.map canonTicket }

/-! ## Stage 3: `handle_missing_values` -/

/-- Mean of a subscriber's non-missing `data_usage_gb` values
(`usage[mask].data_usage_gb.mean()`); `none` models pandas `NaN` on an
empty selection. -/
def subscriberMean (usage : List UsageRecord) (sid : String) : Option ℚ :=
  let vals := (usage.filter (fun u => u.subscriber_id == sid)).filterMap
    (fun u => u.data_usage_gb)
  if vals.length = 0 then none else some (vals.sum / vals.length)

/-- The assignment `usage.loc[(subscriber_id == sid) & isna, data_usage_gb] = fill`. -/
def imputeForSubscriber (sid : String) (fill : ℚ) (usage : List UsageRecord) :
    List UsageRecord :=
  usage.map fun u =>
    if u.subscriber_id == sid && u.data_usage_gb.isNone then
      { u with data_usage_gb := some fill }
    else u

/-- The expression `usage[usage.data_usage_gb.isna()].subscriber_id.unique()`: the
subscriber ids owning at least one missing value, first occurrence order. -/
def missingSubscriberIds (usage : List UsageRecord) : List String :=
  dropDuplicates id
    ((usage.filter (fun u => u.data_usage_gb.isNone)).map (·.subscriber_id))

/-- The imputation loop of `handle_missing_values`: for each subscriber with
a missing value, fill with that subscriber's mean of non-missing values,
falling back to 0 when the mean is `NaN`. -/
def imputeUsage (usage : List UsageRecord) : List UsageRecord :=
  (missingSubscriberIds usage).foldl
    (fun us sid =>
      match subscriberMean us sid with
      | some m => imputeForSubscriber sid m us
      | none => imputeForSubscriber sid 0 us)
    usage

/-- The imputation value the loop uses for one subscriber: the subscriber's
mean of non-missing values, with the `NaN`-mean fallback of 0. -/
def fillValue (usage : List UsageRecord) (sid : String) : ℚ :=
  match subscriberMean usage sid with
  | some m => m
  | none => 0

/-- Row-wise description of the imputation loop's net effect (the source
loop mutates table state subscriber by subscriber; that it agrees with
this per-row map is proved in `imputeUsage_eq_map`). -/
def imputeRow (usage : List UsageRecord) (u : UsageRecord) : UsageRecord :=
  if u.data_usage_gb.isNone then
    { u with data_usage_gb := some (fillValue usage u.subscriber_id) }
  else u

/-- Billing flag assignment of stage 3: `data_quality_flag` is set to `False`
for every row, then `True` where `payment_status == Paid` and
`payment_date` is missing. -/
def flagBilling (b : BillingRecord) : BillingRecord :=
  { b with
    data_quality_flag := b.payment_status == "Paid" && b.payment_date.isNone }

/-- Ticket flag assignment of stage 3: `data_quality_flag` is set to `False`
for every row, then `True` where `ticket_status == Resolved` and
`resolution_date` is missing. -/
def flagTicket (t : Ticket) : Ticket :=
  { t with
    data_quality_flag := t.ticket_status == "Resolved" && t.resolution_date.isNone }

/-- Outage duration recomputation of stage 3: where missing,
`(outage_end_time - outage_start_time).total_seconds() / 60`. -/
def fillOutage (o : OutageRecord) : OutageRecord :=
  match o.outage_duration_mins with
  | some _ => o
  | none =>
    { o with
      outage_duration_mins :=
        some (((o.outage_end_time - o.outage_start_time : Int) : ℚ) / 60) }

/-- Stage 3 of the pipeline. -/
def handle_missing_values (d : DataSet) : DataSet :=
  { d with
    usage := imputeUsage d.usage
    billing := d.billing.map flagBilling
    tickets := d.tickets.map flagTicket
    outages := d.outages.map fillOutage }

/-! ## Stage 4: `handle_outliers` -/

/-- Usage rule of stage 4: `outlier_flag = data_usage_gb > 100`, then cap
the value at 100 where it exceeds 100. -/
def capUsage (u : UsageRecord) : UsageRecord :=
  { u with
    outlier_flag := optGtQ u.data_usage_gb 100
    data_usage_gb :=
      if optGtQ u.data_usage_gb 100 then some 100 else u.data_usage_gb }

/-- Billing rule of stage 4: set `data_quality_flag = True` where
`bill_amount > 2000`; the amount itself is untouched. -/
def flagBillOutlier (b : BillingRecord) : BillingRecord :=
  if optGtQ b.bill_amount 2000 then { b with data_quality_flag := true } else b

/-- Outage rule of stage 4: `outlier_flag = outage_duration_mins > 1440`. -/
def flagOutageOutlier (o : OutageRecord) : OutageRecord :=
  { o with outlier_flag := optGtQ o.outage_duration_mins 1440 }

/-- Stage 4 of the pipeline. -/
def handle_outliers (d : DataSet) : DataSet :=
  { d with
    usage := d.usage.map capUsage
    billing := d.billing.map flagBillOutlier
    outages := d.outages.map flagOutageOutlier }

/-! ## Stage 5: `fix_impossible_values` -/

/-- First ticket repair of stage 5: clear `resolution_date` where it
precedes `ticket_date` (`NaT` compares `False`, so missing dates are kept). -/
def clearBadResolution (t : Ticket) : Ticket :=
  if optLtI t.resolution_date t.ticket_date then
    { t with resolution_date := none }
  else t

/-- Second ticket repair of stage 5: downgrade `ticket_status` to
`In Progress` where `resolution_date` is missing and the status is
`Resolved`. -/
def downgradeUnresolved (t : Ticket) : Ticket :=
  if t.resolution_date.isNone && t.ticket_status == "Resolved" then
    { t with ticket_status := "In Progress" }
  else t

/-- The merge `usage.merge(subscribers[[subscriber_id, activation_date]],
on=subscriber_id)`: an inner join pairing each usage row with the
activation dates of the matching subscribers. -/
def usageMerged (subs : List Subscriber) (usage : List UsageRecord) :
    List (UsageRecord × Int) :=
  usage.flatMap fun u =>
    (subs.filter fun s => s.subscriber_id == u.subscriber_id).map
      fun s => (u, s.activation_date)

/-- The selection `usage_merged[usage_date >= activation_date].usage_id`. -/
def validUsageIds (subs : List Subscriber) (usage : List UsageRecord) :
    List String :=
  ((usageMerged subs usage).filter fun p => decide (p.2 ≤ p.1.usage_date)).map
    fun p => p.1.usage_id

/-- Stage 5 of the pipeline. -/
def fix_impossible_values (d : DataSet) : DataSet :=
  { d with
    billing := d.billing.filter fun b => optGeQ b.bill_amount 0
    tickets := (d.tickets.map clearBadResolution).map downgradeUnresolved
    usage :=
      d.usage.filter fun u =>
        (validUsageIds d.subscribers d.usage).contains u.usage_id }

/-- The whole cleaning pipeline of `main`, stages applied in order. -/
def cleanPipeline (d : DataSet) : DataSet :=
  fix_impossible_values
    (handle_outliers (handle_missing_values (standardize_labels (remove_duplicates d))))

/-- The three post-pipeline invariants of C1: usage dates not before the
referenced subscriber's activation date, resolution dates (when present)
not before their ticket date, and present non-negative bill amounts. -/
def outputInvariants (d : DataSet) : Bool :=
  (d.usage.all fun u =>
    d.subscribers.all fun s =>
      !(s.subscriber_id == u.subscriber_id) ||
        decide (s.activation_date ≤ u.usage_date)) &&
  (d.tickets.all fun t =>
    match t.resolution_date with
    | some r => decide (t.ticket_date ≤ r)
    | none => true) &&
  (d.billing.all fun b => optGeQ b.bill_amount 0)

/-! ## Helper lemmas about `dropDuplicates` -/

theorem dropDupGo_filter {α κ : Type} [DecidableEq κ] (key : α → κ) (k : κ) :
    ∀ (seen : List κ) (l : List α),
      (dropDupGo key seen l).filter (fun r => key r == k) =
        if k ∈ seen then [] else (l.filter (fun r => key r == k)).take 1 := by
  intro seen l
  induction l generalizing seen with
  | nil => simp [dropDupGo]
  | cons r rs ih =>
    by_cases h1 : key r ∈ seen
    · rw [dropDupGo, if_pos h1, ih seen]
      by_cases hk : k ∈ seen
      · simp [hk]
      · have hne : ¬(key r == k) = true := by
          simp only [beq_iff_eq]
          intro he; exact hk (he ▸ h1)
        simp [hk, List.filter_cons, hne]
    · rw [dropDupGo, if_neg h1]
      by_cases hrk : key r = k
      · subst hrk
        have h2 : List.filter (fun a => key a == key r)
            (dropDupGo key (key r :: seen) rs) = [] := by
          rw [ih]; simp
        rw [List.filter_cons_of_pos (by simp), h2, if_neg h1,
          List.filter_cons_of_pos (by simp)]
        simp
      · have hne : ¬(key r == k) = true := by simp [beq_iff_eq, hrk]
        rw [List.filter_cons, if_neg hne, ih (key r :: seen)]
        by_cases hk : k ∈ seen
        · simp [hk, List.mem_cons]
        · have hkr : k ∉ key r :: seen := by
            intro hc
            rcases List.mem_cons.mp hc with hc | hc
            · exact hrk hc.symm
            · exact hk hc
          simp [hkr, hk, List.filter_cons, hne]

theorem dropDuplicates_filter {α κ : Type} [DecidableEq κ] (key : α → κ)
    (k : κ) (l : List α) :
    (dropDuplicates key l).filter (fun r => key r == k) =
      (l.filter (fun r => key r == k)).take 1 := by
  rw [dropDuplicates, dropDupGo_filter]
  simp

theorem dropDupGo_sublist {α κ : Type} [DecidableEq κ] (key : α → κ) :
    ∀ (seen : List κ) (l : List α), (dropDupGo key seen l).Sublist l := by
  intro seen l
  induction l generalizing seen with
  | nil => simp [dropDupGo]
  | cons r rs ih =>
    rw [dropDupGo]
    by_cases h1 : key r ∈ seen
    · exact if_pos h1 ▸ List.Sublist.cons r (ih seen)
    · exact if_neg h1 ▸ List.Sublist.cons₂ r (ih (key r :: seen))

theorem dropDupGo_keys {α κ : Type} [DecidableEq κ] (key : α → κ) :
    ∀ (seen : List κ) (l : List α),
      ((dropDupGo key seen l).map key).Nodup ∧
        ∀ x ∈ (dropDupGo key seen l).map key, x ∉ seen := by
  intro seen l
  induction l generalizing seen with
  | nil => simp [dropDupGo]
  | cons r rs ih =>
    rw [dropDupGo]
    by_cases h1 : key r ∈ seen
    · rw [if_pos h1]; exact ih seen
    · rw [if_neg h1]
      obtain ⟨hnd, hdisj⟩ := ih (key r :: seen)
      refine ⟨?_, ?_⟩
      · rw [List.map_cons, List.nodup_cons]
        exact ⟨fun hc => (hdisj _ hc) (List.mem_cons_self _ _), hnd⟩
      · intro x hx
        rw [List.map_cons, List.mem_cons] at hx
        rcases hx with hx | hx
        · exact hx ▸ h1
        · exact fun hc => (hdisj x hx) (List.mem_cons_of_mem _ hc)

theorem dropDuplicates_keys_nodup {α κ : Type} [DecidableEq κ] (key : α → κ)
    (l : List α) : ((dropDuplicates key l).map key).Nodup :=
  (dropDupGo_keys key [] l).1

/-- Two rows of a list with `Nodup` keys that share a key are equal. -/
theorem eq_of_keys_nodup {α κ : Type} (key : α → κ) {l : List α}
    (h : (l.map key).Nodup) {a b : α} (ha : a ∈ l) (hb : b ∈ l)
    (hk : key a = key b) : a = b :=
  List.inj_on_of_nodup_map h ha hb hk

/-- C7. For every table and its declared unique key, the Deduplicator keeps
exactly the first input row for each key value appearing in the input and
nothing else (stated as: filtering the output on any key value yields the
first matching input row, i.e. `take 1` of the input's matches), and the
empty dataset passes through with zero removals. -/
theorem C7_dedup_first_per_key (d : DataSet) (k : String) :
    ((remove_duplicates d).subscribers.filter (fun r => r.subscriber_id == k) =
        (d.subscribers.filter (fun r => r.subscriber_id == k)).take 1) ∧
    ((remove_duplicates d).usage.filter (fun r => r.usage_id == k) =
        (d.usage.filter (fun r => r.usage_id == k)).take 1) ∧
    ((remove_duplicates d).billing.filter (fun r => r.bill_id == k) =
        (d.billing.filter (fun r => r.bill_id == k)).take 1) ∧
    ((remove_duplicates d).tickets.filter (fun r => r.ticket_id == k) =
        (d.tickets.filter (fun r => r.ticket_id == k)).take 1) ∧
    ((remove_duplicates d).outages.filter (fun r => r.outage_id == k) =
        (d.outages.filter (fun r => r.outage_id == k)).take 1) ∧
    remove_duplicates ⟨[], [], [], [], []⟩ = ⟨[], [], [], [], []⟩ := by
  refine ⟨?_, ?_, ?_, ?_, ?_, ?_⟩ <;>
    first
      | exact dropDuplicates_filter _ k _
      | rfl

/-! ## Helper lemmas about `applyMapping` -/

/-- A mapping whose canonical values are not themselves variant keys is
idempotent cell-wise. -/
theorem applyMapping_idem (m : List (String × String))
    (h : ∀ p ∈ m, m.find? (fun q => q.1 == p.2) = none) (v : String) :
    applyMapping m (applyMapping m v) = applyMapping m v := by
  rcases hf : m.find? (fun p => p.1 == v) with _ | p
  · have h1 : applyMapping m v = v := by rw [applyMapping, hf]
    rw [h1, h1]
  · have hp : p ∈ m := List.mem_of_find?_eq_some hf
    have h1 : applyMapping m v = p.2 := by rw [applyMapping, hf]
    rw [h1, applyMapping, h p hp]

theorem plan_type_mapping_closed :
    ∀ p ∈ plan_type_mapping,
      plan_type_mapping.find? (fun q => q.1 == p.2) = none := by decide

theorem city_mapping_closed :
    ∀ p ∈ city_mapping, city_mapping.find? (fun q => q.1 == p.2) = none := by
  decide

theorem status_mapping_closed :
    ∀ p ∈ status_mapping, status_mapping.find? (fun q => q.1 == p.2) = none := by
  decide

theorem canonSubscriber_idem (s : Subscriber) :
    canonSubscriber (canonSubscriber s) = canonSubscriber s := by
  simp [canonSubscriber, applyMapping_idem _ plan_type_mapping_closed,
    applyMapping_idem _ city_mapping_closed]

theorem canonTicket_idem (t : Ticket) :
    canonTicket (canonTicket t) = canonTicket t := by
  simp [canonTicket, applyMapping_idem _ status_mapping_closed]

/-- C6. Label canonicalization is idempotent: applying the Label
Canonicalizer twice to any dataset yields the same tables as applying it
once; consequently on already-canonical data (any fixed point, in
particular any output of the canonicalizer) it is a no-op. -/
theorem C6_canonicalization_idempotent (d : DataSet) :
    standardize_labels (standardize_labels d) = standardize_labels d := by
  show DataSet.mk
      ((d.subscribers.map canonSubscriber).map canonSubscriber)
      d.usage d.billing
      ((d.tickets.map canonTicket).map canonTicket) d.outages =
    DataSet.mk (d.subscribers.map canonSubscriber) d.usage d.billing
      (d.tickets.map canonTicket) d.outages
  rw [List.map_map, List.map_map]
  congr 1
  · exact List.map_congr_left fun s _ => canonSubscriber_idem s
  · exact List.map_congr_left fun t _ => canonTicket_idem t

/-- C10. The non-negative-billing rule of the Consistency Repairer keeps
exactly the rows whose `bill_amount` is present and non-negative: every
output billing row has a non-missing, non-negative amount, and every
input row with a missing `bill_amount` is absent from the output. -/
theorem C10_null_bill_amount_removed (d : DataSet) :
    ((fix_impossible_values d).billing.all fun b => optGeQ b.bill_amount 0) = true ∧
    (d.billing.all fun b =>
        b.bill_amount.isSome || decide (b ∉ (fix_impossible_values d).billing)) = true := by
  have hbil : (fix_impossible_values d).billing =
      d.billing.filter (fun b => optGeQ b.bill_amount 0) := rfl
  constructor
  · rw [List.all_eq_true]
    intro b hb
    rw [hbil] at hb
    simpa using List.of_mem_filter hb
  · rw [List.all_eq_true]
    intro b _
    rcases hba : b.bill_amount with _ | a
    · simp only [Option.isSome_none, Bool.false_or, decide_eq_true_eq]
      intro hc
      rw [hbil] at hc
      have h2 := List.of_mem_filter hc
      rw [hba] at h2
      simp [optGeQ] at h2
    · simp

/-! ## Helper lemmas for row-aligned (zip) statements -/

theorem zip_map_self {α β : Type} (f : α → β) (l : List α) :
    l.zip (l.map f) = l.map fun a => (a, f a) := by
  have h := List.zip_map' id f l
  simpa using h

theorem fix_tickets_eq (d : DataSet) :
    (fix_impossible_values d).tickets =
      d.tickets.map fun t => downgradeUnresolved (clearBadResolution t) := by
  show (d.tickets.map clearBadResolution).map downgradeUnresolved = _
  rw [List.map_map]
  rfl

theorem downgradeUnresolved_res (t : Ticket) :
    (downgradeUnresolved t).resolution_date = t.resolution_date := by
  rw [downgradeUnresolved]; split <;> rfl

theorem clearBadResolution_status (t : Ticket) :
    (clearBadResolution t).ticket_status = t.ticket_status := by
  rw [clearBadResolution]; split <;> rfl

/-- Row-level content of the ticket repair: the three conjuncts of C5. -/
theorem ticket_repair_pointwise (t : Ticket) :
    (!(optLtI t.resolution_date t.ticket_date) ||
        (downgradeUnresolved (clearBadResolution t)).resolution_date.isNone) = true ∧
    (!((downgradeUnresolved (clearBadResolution t)).ticket_status == "Resolved" &&
        (downgradeUnresolved (clearBadResolution t)).resolution_date.isNone)) = true ∧
    (!((clearBadResolution t).resolution_date.isNone &&
          t.ticket_status == "Resolved") ||
        ((downgradeUnresolved (clearBadResolution t)).ticket_status ==
          "In Progress")) = true := by
  refine ⟨?_, ?_, ?_⟩
  · by_cases h : optLtI t.resolution_date t.ticket_date = true
    · rw [downgradeUnresolved_res, clearBadResolution, if_pos h]
      simp
    · simp [h]
  · set s := clearBadResolution t with hs
    by_cases hc : (s.resolution_date.isNone && s.ticket_status == "Resolved") = true
    · rw [downgradeUnresolved, if_pos hc]
      simp
    · rw [downgradeUnresolved, if_neg hc]
      rw [Bool.and_comm] at hc
      simp only [Bool.not_eq_true] at hc
      simp [hc]
  · by_cases h : ((clearBadResolution t).resolution_date.isNone &&
        t.ticket_status == "Resolved") = true
    · have h2 : ((clearBadResolution t).resolution_date.isNone &&
          (clearBadResolution t).ticket_status == "Resolved") = true := by
        rw [clearBadResolution_status]; exact h
      rw [downgradeUnresolved, if_pos h2]
      simp
    · simp [h]

/-- C5. The Consistency Repairer clears every `resolution_date` preceding
its `ticket_date`; afterwards no ticket is `Resolved` with a missing
`resolution_date` — every such ticket has been downgraded to
`In Progress`. Row count is preserved (the stage repairs, never drops,
tickets). -/
theorem C5_ticket_consistency_repair (d : DataSet) :
    (fix_impossible_values d).tickets.length = d.tickets.length ∧
    ((d.tickets.zip (fix_impossible_values d).tickets).all fun p =>
        !(optLtI p.1.resolution_date p.1.ticket_date) ||
          p.2.resolution_date.isNone) = true ∧
    ((fix_impossible_values d).tickets.all fun t =>
        !(t.ticket_status == "Resolved" && t.resolution_date.isNone)) = true ∧
    ((d.tickets.zip (fix_impossible_values d).tickets).all fun p =>
        !((clearBadResolution p.1).resolution_date.isNone &&
            p.1.ticket_status == "Resolved") ||
          (p.2.ticket_status == "In Progress")) = true := by
  rw [fix_tickets_eq, zip_map_self]
  refine ⟨by rw [List.length_map], ?_, ?_, ?_⟩
  · rw [List.all_eq_true]
    intro x hx
    obtain ⟨t, _, rfl⟩ := List.mem_map.mp hx
    exact (ticket_repair_pointwise t).1
  · rw [List.all_eq_true]
    intro x hx
    obtain ⟨t, _, rfl⟩ := List.mem_map.mp hx
    exact (ticket_repair_pointwise t).2.1
  · rw [List.all_eq_true]
    intro x hx
    obtain ⟨t, _, rfl⟩ := List.mem_map.mp hx
    exact (ticket_repair_pointwise t).2.2

/-- Row-level content of the Outlier Handler: the three conjuncts of C8. -/
theorem outlier_pointwise (b : BillingRecord) (o : OutageRecord)
    (u : UsageRecord) :
    (flagBillOutlier b).bill_amount = b.bill_amount ∧
    (!(optGtQ b.bill_amount 2000) ||
        (flagBillOutlier b).data_quality_flag) = true ∧
    (flagOutageOutlier o).outage_duration_mins = o.outage_duration_mins ∧
    (!(optGtQ o.outage_duration_mins 1440) ||
        (flagOutageOutlier o).outlier_flag) = true ∧
    (!(optGtQ u.data_usage_gb 100) ||
        ((capUsage u).outlier_flag &&
          decide ((capUsage u).data_usage_gb = some 100))) = true := by
  refine ⟨?_, ?_, rfl, ?_, ?_⟩
  · rw [flagBillOutlier]; split <;> rfl
  · by_cases h : optGtQ b.bill_amount 2000 = true
    · simp [flagBillOutlier, h]
    · simp [h]
  · by_cases h : optGtQ o.outage_duration_mins 1440 = true
    · simp [flagOutageOutlier, h]
    · simp [h]
  · by_cases h : optGtQ u.data_usage_gb 100 = true
    · simp [capUsage, h]
    · simp [h]

/-- C8. The Outlier Handler is flag-only outside `data_usage_gb`: every
billing row keeps its `bill_amount` and every outage row keeps its
`outage_duration_mins` unchanged, row counts are preserved, every billing
row with `bill_amount > 2000` leaves the stage with
`data_quality_flag = true`, every outage row with
`outage_duration_mins > 1440` leaves with `outlier_flag = true`, and
every usage row with `data_usage_gb > 100` gets `outlier_flag = true`
with the value clamped to exactly 100. -/
theorem C8_outlier_handler_frame (d : DataSet) :
    (handle_outliers d).usage.length = d.usage.length ∧
    (handle_outliers d).billing.length = d.billing.length ∧
    (handle_outliers d).outages.length = d.outages.length ∧
    ((d.billing.zip (handle_outliers d).billing).all fun p =>
        decide (p.2.bill_amount = p.1.bill_amount)) = true ∧
    ((d.billing.zip (handle_outliers d).billing).all fun p =>
        !(optGtQ p.1.bill_amount 2000) || p.2.data_quality_flag) = true ∧
    ((d.outages.zip (handle_outliers d).outages).all fun p =>
        decide (p.2.outage_duration_mins = p.1.outage_duration_mins)) = true ∧
    ((d.outages.zip (handle_outliers d).outages).all fun p =>
        !(optGtQ p.1.outage_duration_mins 1440) || p.2.outlier_flag) = true ∧
    ((d.usage.zip (handle_outliers d).usage).all fun p =>
        !(optGtQ p.1.data_usage_gb 100) ||
          (p.2.outlier_flag && decide (p.2.data_usage_gb = some 100))) = true := by
  have hu : (handle_outliers d).usage = d.usage.map capUsage := rfl
  have hb : (handle_outliers d).billing = d.billing.map flagBillOutlier := rfl
  have ho : (handle_outliers d).outages = d.outages.map flagOutageOutlier := rfl
  rw [hu, hb, ho, zip_map_self, zip_map_self, zip_map_self]
  refine ⟨List.length_map .., List.length_map .., List.length_map ..,
    ?_, ?_, ?_, ?_, ?_⟩
  · rw [List.all_eq_true]
    intro x hx
    obtain ⟨b, _, rfl⟩ := List.mem_map.mp hx
    simp only [decide_eq_true_eq]
    exact (outlier_pointwise b ⟨"", "", 0, 0, none, false⟩
      ⟨"", "", 0, none, false⟩).1
  · rw [List.all_eq_true]
    intro x hx
    obtain ⟨b, _, rfl⟩ := List.mem_map.mp hx
    exact (outlier_pointwise b ⟨"", "", 0, 0, none, false⟩
      ⟨"", "", 0, none, false⟩).2.1
  · rw [List.all_eq_true]
    intro x hx
    obtain ⟨o, _, rfl⟩ := List.mem_map.mp hx
    simp only [decide_eq_true_eq]
    exact (outlier_pointwise ⟨"", "", 0, 0, none, "", none, false⟩ o
      ⟨"", "", 0, none, false⟩).2.2.1
  · rw [List.all_eq_true]
    intro x hx
    obtain ⟨o, _, rfl⟩ := List.mem_map.mp hx
    exact (outlier_pointwise ⟨"", "", 0, 0, none, "", none, false⟩ o
      ⟨"", "", 0, none, false⟩).2.2.2.1
  · rw [List.all_eq_true]
    intro x hx
    obtain ⟨u, _, rfl⟩ := List.mem_map.mp hx
    exact (outlier_pointwise ⟨"", "", 0, 0, none, "", none, false⟩
      ⟨"", "", 0, 0, none, false⟩ u).2.2.2.2

/-! ## The imputation loop's net effect -/

theorem imputeForSubscriber_filter_ne (us : List UsageRecord)
    (sid sid' : String) (h : sid ≠ sid') (v : ℚ) :
    (imputeForSubscriber sid' v us).filter (fun u => u.subscriber_id == sid) =
      us.filter (fun u => u.subscriber_id == sid) := by
  rw [imputeForSubscriber, List.filter_map]
  have h1 : ((fun u : UsageRecord => u.subscriber_id == sid) ∘ fun u =>
      if u.subscriber_id == sid' && u.data_usage_gb.isNone then
        { u with data_usage_gb := some v }
      else u) = fun u => u.subscriber_id == sid := by
    funext u
    simp only [Function.comp]
    split <;> rfl
  rw [h1]
  have h2 : ∀ u ∈ us.filter (fun u => u.subscriber_id == sid),
      (if u.subscriber_id == sid' && u.data_usage_gb.isNone then
        { u with data_usage_gb := some v }
      else u) = u := by
    intro u hu
    have hm : (u.subscriber_id == sid) = true := by
      simpa using List.of_mem_filter hu
    have hne : (u.subscriber_id == sid') = false := by
      rw [beq_iff_eq] at hm
      simp [hm, h]
    rw [hne]
    simp
  rw [List.map_congr_left h2]
  simp

theorem subscriberMean_impute_ne (us : List UsageRecord) (sid sid' : String)
    (h : sid ≠ sid') (v : ℚ) :
    subscriberMean (imputeForSubscriber sid' v us) sid = subscriberMean us sid := by
  rw [subscriberMean, subscriberMean, imputeForSubscriber_filter_ne us sid sid' h v]

theorem fillValue_impute_ne (us : List UsageRecord) (sid sid' : String)
    (h : sid ≠ sid') (v : ℚ) :
    fillValue (imputeForSubscriber sid' v us) sid = fillValue us sid := by
  rw [fillValue, fillValue, subscriberMean_impute_ne us sid sid' h v]

theorem imputeAll_eq (sids : List String) :
    ∀ us : List UsageRecord, sids.Nodup →
      sids.foldl (fun us sid => imputeForSubscriber sid (fillValue us sid) us) us =
        us.map fun u =>
          if decide (u.subscriber_id ∈ sids) && u.data_usage_gb.isNone then
            { u with data_usage_gb := some (fillValue us u.subscriber_id) }
          else u := by
  induction sids with
  | nil =>
    intro us _
    simp
  | cons sid sids ih =>
    intro us hnd
    rw [List.nodup_cons] at hnd
    obtain ⟨hsid, hnd⟩ := hnd
    rw [List.foldl_cons, ih _ hnd]
    have hstep : imputeForSubscriber sid (fillValue us sid) us =
        us.map fun u =>
          if u.subscriber_id == sid && u.data_usage_gb.isNone then
            { u with data_usage_gb := some (fillValue us sid) }
          else u := rfl
    have hfill : ∀ x : String, x ∈ sids →
        fillValue (imputeForSubscriber sid (fillValue us sid) us) x =
          fillValue us x := by
      intro x hx
      have hxne : x ≠ sid := fun he => hsid (he ▸ hx)
      exact fillValue_impute_ne us x sid hxne _
    have hfun : (fun u : UsageRecord =>
        if decide (u.subscriber_id ∈ sids) && u.data_usage_gb.isNone then
          { u with
            data_usage_gb :=
              some (fillValue (imputeForSubscriber sid (fillValue us sid) us)
                u.subscriber_id) }
        else u) =
        fun u =>
          if decide (u.subscriber_id ∈ sids) && u.data_usage_gb.isNone then
            { u with data_usage_gb := some (fillValue us u.subscriber_id) }
          else u := by
      funext u
      by_cases hc : (decide (u.subscriber_id ∈ sids) && u.data_usage_gb.isNone) = true
      · have hmem : u.subscriber_id ∈ sids := by
          have := (Bool.and_eq_true _ _).mp hc
          exact of_decide_eq_true this.1
        rw [if_pos hc, if_pos hc, hfill _ hmem]
      · rw [if_neg hc, if_neg hc]
    rw [hfun, hstep, List.map_map]
    apply List.map_congr_left
    intro u _
    simp only [Function.comp]
    by_cases h1 : (u.subscriber_id == sid && u.data_usage_gb.isNone) = true
    · obtain ⟨ha, hb⟩ := (Bool.and_eq_true _ _).mp h1
      have heq : u.subscriber_id = sid := by rwa [beq_iff_eq] at ha
      simp [heq, hb, hsid, List.mem_cons]
    · by_cases h2 : u.data_usage_gb.isNone = true
      · have ha : (u.subscriber_id == sid) = false := by
          cases hval : (u.subscriber_id == sid) with
          | false => rfl
          | true =>
            exact absurd (by simp [hval, h2] :
              (u.subscriber_id == sid && u.data_usage_gb.isNone) = true) h1
        have hne : u.subscriber_id ≠ sid := by
          intro he
          rw [he, beq_self_eq_true] at ha
          exact absurd ha (by decide)
        simp [List.mem_cons, hne, h2, ha]
      · simp only [Bool.not_eq_true] at h2
        simp [h2]

theorem missingSubscriberIds_nodup (usage : List UsageRecord) :
    (missingSubscriberIds usage).Nodup := by
  have h := dropDuplicates_keys_nodup (id : String → String)
    ((usage.filter (fun u => u.data_usage_gb.isNone)).map (·.subscriber_id))
  rwa [List.map_id] at h

theorem mem_dropDupGo_id {κ : Type} [DecidableEq κ] :
    ∀ (l : List κ) (seen : List κ) (a : κ), a ∈ l → a ∉ seen →
      a ∈ dropDupGo id seen l := by
  intro l
  induction l with
  | nil => intro seen a ha _; exact absurd ha (List.not_mem_nil a)
  | cons r rs ih =>
    intro seen a ha hseen
    by_cases har : a = r
    · subst har
      rw [dropDupGo]
      simp only [id]
      rw [if_neg hseen]
      exact List.mem_cons_self _ _
    · have hars : a ∈ rs := by
        rcases List.mem_cons.mp ha with h | h
        · exact absurd h har
        · exact h
      rw [dropDupGo]
      simp only [id]
      by_cases hr : r ∈ seen
      · rw [if_pos hr]
        exact ih seen a hars hseen
      · rw [if_neg hr]
        refine List.mem_cons_of_mem _ (ih (r :: seen) a hars ?_)
        intro hc
        rcases List.mem_cons.mp hc with h | h
        · exact har h
        · exact hseen h

theorem mem_missingSubscriberIds {usage : List UsageRecord} {u : UsageRecord}
    (hu : u ∈ usage) (hn : u.data_usage_gb.isNone = true) :
    u.subscriber_id ∈ missingSubscriberIds usage := by
  rw [missingSubscriberIds, dropDuplicates]
  apply mem_dropDupGo_id _ _ _ _ (List.not_mem_nil _)
  exact List.mem_map_of_mem _ (List.mem_filter.mpr ⟨hu, hn⟩)

/-- The source's stateful imputation loop agrees with the per-row map by
`imputeRow`: missing rows get their subscriber's mean (0 when the
subscriber has no non-missing values), other rows pass through. -/
theorem imputeUsage_eq_map (usage : List UsageRecord) :
    imputeUsage usage = usage.map (imputeRow usage) := by
  rw [imputeUsage]
  have hstep : (fun (us : List UsageRecord) (sid : String) =>
      match subscriberMean us sid with
      | some m => imputeForSubscriber sid m us
      | none => imputeForSubscriber sid 0 us) =
      fun us sid => imputeForSubscriber sid (fillValue us sid) us := by
    funext us sid
    rcases h : subscriberMean us sid with _ | m <;> simp [fillValue, h]
  rw [hstep, imputeAll_eq _ _ (missingSubscriberIds_nodup usage)]
  apply List.map_congr_left
  intro u hu
  rw [imputeRow]
  by_cases hn : u.data_usage_gb.isNone = true
  · have hmem : u.subscriber_id ∈ missingSubscriberIds usage :=
      mem_missingSubscriberIds hu hn
    simp [hn, hmem]
  · simp [hn]

/-- C2. Grouped mean imputation: the Missing-Value Resolver fills each
missing `data_usage_gb` with the arithmetic mean of that subscriber's own
non-missing values (0 when the subscriber has none) and leaves non-missing
rows unchanged — stated as agreement of the source loop with the per-row
map `imputeRow`; in particular a subscriber with values {10, 20} and one
missing row gets that row imputed to 15. -/
theorem C2_grouped_mean_imputation :
    (∀ usage : List UsageRecord, imputeUsage usage = usage.map (imputeRow usage)) ∧
    imputeUsage
        [⟨"U1", "SUB000001", 0, some 10, false⟩,
         ⟨"U2", "SUB000001", 1, some 20, false⟩,
         ⟨"U3", "SUB000001", 2, none, false⟩] =
      [⟨"U1", "SUB000001", 0, some 10, false⟩,
       ⟨"U2", "SUB000001", 1, some 20, false⟩,
       ⟨"U3", "SUB000001", 2, some 15, false⟩] :=
  ⟨imputeUsage_eq_map, by
    rw [imputeUsage_eq_map]
    simp only [List.map_cons, List.map_nil, imputeRow, fillValue, subscriberMean,
      List.filter, List.filterMap]
    norm_num⟩

/-- C3. Completeness of imputation: after the Missing-Value Resolver,
`data_usage_gb` is present on every usage row and `outage_duration_mins`
on every outage row, the missing durations having been recomputed exactly
as `(outage_end_time − outage_start_time)` in minutes. -/
theorem C3_imputation_completeness (d : DataSet) :
    ((handle_missing_values d).usage.all fun u => u.data_usage_gb.isSome) = true ∧
    ((handle_missing_values d).outages.all fun o =>
        o.outage_duration_mins.isSome) = true ∧
    ((d.outages.zip (handle_missing_values d).outages).all fun p =>
        p.1.outage_duration_mins.isSome ||
          decide (p.2.outage_duration_mins =
            some (((p.1.outage_end_time - p.1.outage_start_time : Int) : ℚ) /
              60))) = true := by
  have husage : (handle_missing_values d).usage = imputeUsage d.usage := rfl
  have hout : (handle_missing_values d).outages = d.outages.map fillOutage := rfl
  refine ⟨?_, ?_, ?_⟩
  · rw [husage, imputeUsage_eq_map, List.all_eq_true]
    intro x hx
    obtain ⟨u, _, rfl⟩ := List.mem_map.mp hx
    rw [imputeRow]
    rcases hgb : u.data_usage_gb with _ | v
    · simp [hgb]
    · simp [hgb]
  · rw [hout, List.all_eq_true]
    intro x hx
    obtain ⟨o, _, rfl⟩ := List.mem_map.mp hx
    rw [fillOutage]
    rcases hdur : o.outage_duration_mins with _ | v <;> simp [hdur]
  · rw [hout, zip_map_self, List.all_eq_true]
    intro x hx
    obtain ⟨o, _, rfl⟩ := List.mem_map.mp hx
    rw [fillOutage]
    rcases hdur : o.outage_duration_mins with _ | v <;> simp [hdur]

/-! ## Flag provenance through the pipeline -/

theorem clearBadResolution_flag (t : Ticket) :
    (clearBadResolution t).data_quality_flag = t.data_quality_flag := by
  rw [clearBadResolution]; split <;> rfl

theorem downgradeUnresolved_flag (t : Ticket) :
    (downgradeUnresolved t).data_quality_flag = t.data_quality_flag := by
  rw [downgradeUnresolved]; split <;> rfl

theorem billing_flag_pointwise (b : BillingRecord) :
    ((flagBillOutlier (flagBilling b)).data_quality_flag ==
      (((flagBillOutlier (flagBilling b)).payment_status == "Paid" &&
          (flagBillOutlier (flagBilling b)).payment_date.isNone) ||
        optGtQ (flagBillOutlier (flagBilling b)).bill_amount 2000)) = true := by
  by_cases h : optGtQ b.bill_amount 2000 = true
  · simp [flagBilling, flagBillOutlier, h]
  · simp only [Bool.not_eq_true] at h
    simp [flagBilling, flagBillOutlier, h]

/-- C4. Flag-implies-condition, both directions and for no other reason:
every output billing row's `data_quality_flag` equals ((`payment_status =
Paid` and missing `payment_date`) or `bill_amount > 2000`) — billing
payment fields and amounts are never mutated, so the condition can be read
off the output row — and every output ticket's `data_quality_flag` equals
whether the row-aligned ticket entering the Missing-Value Resolver (after
dedup and canonicalization) was `Resolved` with a missing
`resolution_date`. -/
theorem C4_flag_iff_condition (d : DataSet) :
    ((cleanPipeline d).billing.all fun b =>
        b.data_quality_flag ==
          ((b.payment_status == "Paid" && b.payment_date.isNone) ||
            optGtQ b.bill_amount 2000)) = true ∧
    (cleanPipeline d).tickets.length =
      (standardize_labels (remove_duplicates d)).tickets.length ∧
    (((standardize_labels (remove_duplicates d)).tickets.zip
        (cleanPipeline d).tickets).all fun p =>
        p.2.data_quality_flag ==
          (p.1.ticket_status == "Resolved" && p.1.resolution_date.isNone)) = true := by
  have hbil : (cleanPipeline d).billing =
      (((remove_duplicates d).billing.map flagBilling).map flagBillOutlier).filter
        (fun b => optGeQ b.bill_amount 0) := rfl
  have htick : (cleanPipeline d).tickets =
      (standardize_labels (remove_duplicates d)).tickets.map
        (fun t => downgradeUnresolved (clearBadResolution (flagTicket t))) := by
    show (((standardize_labels (remove_duplicates d)).tickets.map
        flagTicket).map clearBadResolution).map downgradeUnresolved = _
    rw [List.map_map, List.map_map]
    rfl
  refine ⟨?_, ?_, ?_⟩
  · rw [hbil, List.all_eq_true]
    intro b hb
    have hb2 := List.mem_of_mem_filter hb
    rw [List.map_map] at hb2
    obtain ⟨b0, _, rfl⟩ := List.mem_map.mp hb2
    exact billing_flag_pointwise b0
  · rw [htick, List.length_map]
  · rw [htick, zip_map_self, List.all_eq_true]
    intro x hx
    obtain ⟨t, _, rfl⟩ := List.mem_map.mp hx
    simp only [downgradeUnresolved_flag, clearBadResolution_flag]
    simp [flagTicket]

/-! ## The usage-before-activation join -/

theorem mem_validUsageIds {subs : List Subscriber} {usage : List UsageRecord}
    {x : String} :
    x ∈ validUsageIds subs usage ↔
      ∃ u ∈ usage, ∃ s ∈ subs, s.subscriber_id = u.subscriber_id ∧
        s.activation_date ≤ u.usage_date ∧ u.usage_id = x := by
  rw [validUsageIds, usageMerged]
  constructor
  · intro hx
    obtain ⟨p, hp, hpx⟩ := List.mem_map.mp hx
    have hpf := List.mem_filter.mp hp
    obtain ⟨u, hu, hmap⟩ := List.mem_flatMap.mp hpf.1
    obtain ⟨s, hs, hps⟩ := List.mem_map.mp hmap
    have hsf := List.mem_filter.mp hs
    refine ⟨u, hu, s, hsf.1, ?_, ?_, ?_⟩
    · exact beq_iff_eq.mp (by simpa using hsf.2)
    · rw [← hps] at hpf
      have h2 := of_decide_eq_true hpf.2
      simpa using h2
    · rw [← hps] at hpx
      simpa using hpx
  · rintro ⟨u, hu, s, hs, hid, hle, hxid⟩
    apply List.mem_map.mpr
    refine ⟨(u, s.activation_date), ?_, hxid⟩
    apply List.mem_filter.mpr
    refine ⟨?_, by simpa using hle⟩
    apply List.mem_flatMap.mpr
    refine ⟨u, hu, ?_⟩
    apply List.mem_map.mpr
    refine ⟨s, ?_, rfl⟩
    apply List.mem_filter.mpr
    exact ⟨hs, by simpa using hid⟩

/-! ## Key preservation through the row-wise stages -/

theorem map_keys_eq {α κ : Type} (key : α → κ) (f : α → α)
    (h : ∀ a, key (f a) = key a) (l : List α) :
    (l.map f).map key = l.map key := by
  rw [List.map_map]
  exact List.map_congr_left fun a _ => h a

theorem imputeRow_usage_id (usage : List UsageRecord) (u : UsageRecord) :
    (imputeRow usage u).usage_id = u.usage_id := by
  rw [imputeRow]; split <;> rfl

theorem capUsage_usage_id (u : UsageRecord) :
    (capUsage u).usage_id = u.usage_id := rfl

theorem imputeUsage_ids (usage : List UsageRecord) :
    (imputeUsage usage).map (fun u => u.usage_id) =
      usage.map (fun u => u.usage_id) := by
  rw [imputeUsage_eq_map]
  exact map_keys_eq _ _ (imputeRow_usage_id usage) usage

/-- The usage table reaching the Consistency Repairer has pairwise distinct
`usage_id`s (established by the Deduplicator, preserved by stages 2–4). -/
theorem stage5_usage_nodup (d : DataSet) :
    ((handle_outliers (handle_missing_values
        (standardize_labels (remove_duplicates d)))).usage.map
      (fun u => u.usage_id)).Nodup := by
  have heq : (handle_outliers (handle_missing_values
      (standardize_labels (remove_duplicates d)))).usage =
      (imputeUsage (dropDuplicates UsageRecord.usage_id d.usage)).map capUsage := rfl
  rw [heq, map_keys_eq _ _ capUsage_usage_id, imputeUsage_ids]
  exact dropDuplicates_keys_nodup UsageRecord.usage_id d.usage

theorem canonSubscriber_id (s : Subscriber) :
    (canonSubscriber s).subscriber_id = s.subscriber_id := rfl

/-- The subscriber table reaching the Consistency Repairer has pairwise
distinct `subscriber_id`s. -/
theorem stage5_subs_nodup (d : DataSet) :
    ((handle_outliers (handle_missing_values
        (standardize_labels (remove_duplicates d)))).subscribers.map
      (fun s => s.subscriber_id)).Nodup := by
  have heq : (handle_outliers (handle_missing_values
      (standardize_labels (remove_duplicates d)))).subscribers =
      (dropDuplicates Subscriber.subscriber_id d.subscribers).map canonSubscriber := rfl
  rw [heq, map_keys_eq _ _ canonSubscriber_id]
  exact dropDuplicates_keys_nodup Subscriber.subscriber_id d.subscribers

theorem downgradeUnresolved_ticket_date (t : Ticket) :
    (downgradeUnresolved t).ticket_date = t.ticket_date := by
  rw [downgradeUnresolved]; split <;> rfl

theorem clearBadResolution_ticket_date (t : Ticket) :
    (clearBadResolution t).ticket_date = t.ticket_date := by
  rw [clearBadResolution]; split <;> rfl

theorem ticket_inv_pointwise (t : Ticket) :
    (match (downgradeUnresolved (clearBadResolution t)).resolution_date with
      | some r =>
        decide ((downgradeUnresolved (clearBadResolution t)).ticket_date ≤ r)
      | none => true) = true := by
  rw [downgradeUnresolved_res, downgradeUnresolved_ticket_date,
    clearBadResolution_ticket_date]
  by_cases h : optLtI t.resolution_date t.ticket_date = true
  · rw [clearBadResolution, if_pos h]
  · rw [clearBadResolution, if_neg h]
    rcases hres : t.resolution_date with _ | r
    · rfl
    · rw [hres, optLtI] at h
      simp only [decide_eq_true_eq] at h ⊢
      exact Int.not_lt.mp h

/-- C1. Post-pipeline invariants: every surviving usage row's `usage_date`
is at least the activation date of the (unique, deduplicated) subscriber
it references, every ticket with a present `resolution_date` has it at or
after its `ticket_date`, and every surviving billing row has a present
`bill_amount ≥ 0`. -/
theorem C1_output_invariants (d : DataSet) :
    outputInvariants (cleanPipeline d) = true := by
  have hnodupU := stage5_usage_nodup d
  have hnodupS := stage5_subs_nodup d
  rw [outputInvariants]
  simp only [Bool.and_eq_true]
  refine ⟨⟨?_, ?_⟩, ?_⟩
  · have hu5 : (cleanPipeline d).usage =
        (handle_outliers (handle_missing_values
          (standardize_labels (remove_duplicates d)))).usage.filter
          (fun u =>
            (validUsageIds
              (handle_outliers (handle_missing_values
                (standardize_labels (remove_duplicates d)))).subscribers
              (handle_outliers (handle_missing_values
                (standardize_labels (remove_duplicates d)))).usage).contains
              u.usage_id) := rfl
    have hs5 : (cleanPipeline d).subscribers =
        (handle_outliers (handle_missing_values
          (standardize_labels (remove_duplicates d)))).subscribers := rfl
    rw [hu5, hs5, List.all_eq_true]
    intro u hu
    have hu5m := List.mem_of_mem_filter hu
    have hpred := List.of_mem_filter hu
    have hmemval : u.usage_id ∈ validUsageIds
        (handle_outliers (handle_missing_values
          (standardize_labels (remove_duplicates d)))).subscribers
        (handle_outliers (handle_missing_values
          (standardize_labels (remove_duplicates d)))).usage := by
      simpa using hpred
    obtain ⟨u', hu', s', hs', hid, hle, huid⟩ := mem_validUsageIds.mp hmemval
    have heq : u' = u :=
      eq_of_keys_nodup (fun u => u.usage_id) hnodupU hu' hu5m huid
    subst heq
    rw [List.all_eq_true]
    intro s hs
    by_cases hmatch : s.subscriber_id = u'.subscriber_id
    · have hss : s = s' :=
        eq_of_keys_nodup (fun s => s.subscriber_id) hnodupS hs hs'
          (hmatch.trans hid.symm)
      subst hss
      simp [hle]
    · simp [hmatch]
  · have ht5 : (cleanPipeline d).tickets =
        ((handle_outliers (handle_missing_values
          (standardize_labels (remove_duplicates d)))).tickets.map
            clearBadResolution).map downgradeUnresolved := rfl
    rw [ht5, List.map_map, List.all_eq_true]
    intro x hx
    obtain ⟨t, _, rfl⟩ := List.mem_map.mp hx
    exact ticket_inv_pointwise t
  · have hb5 : (cleanPipeline d).billing =
        (handle_outliers (handle_missing_values
          (standardize_labels (remove_duplicates d)))).billing.filter
          (fun b => optGeQ b.bill_amount 0) := rfl
    rw [hb5, List.all_eq_true]
    intro b hb
    simpa using List.of_mem_filter hb

/-- C9. The usage-before-activation repair is an inner join with the
Subscriber table: a usage row whose `subscriber_id` matches no subscriber
contributes nothing to the set of valid `usage_id`s and (given the
deduplicated table's distinct `usage_id`s) is removed from the output,
regardless of its `usage_date`. -/
theorem C9_orphan_usage_removed (d : DataSet) (u : UsageRecord)
    (hu : u ∈ d.usage)
    (horphan : ∀ s ∈ d.subscribers, s.subscriber_id ≠ u.subscriber_id)
    (hnodup : (d.usage.map (fun u => u.usage_id)).Nodup) :
    u.usage_id ∉ validUsageIds d.subscribers d.usage ∧
    u ∉ (fix_impossible_values d).usage := by
  have h1 : u.usage_id ∉ validUsageIds d.subscribers d.usage := by
    intro hc
    obtain ⟨u', hu', s', hs', hid, _, huid⟩ := mem_validUsageIds.mp hc
    have heq : u' = u := eq_of_keys_nodup (fun u => u.usage_id) hnodup hu' hu huid
    subst heq
    exact horphan s' hs' hid
  refine ⟨h1, ?_⟩
  intro hc
  have heq : (fix_impossible_values d).usage =
      d.usage.filter (fun u =>
        (validUsageIds d.subscribers d.usage).contains u.usage_id) := rfl
  rw [heq] at hc
  have hpred := List.of_mem_filter hc
  exact h1 (by simpa using hpred)

/-- Witness for C9 at a concrete dataset: subscriber `S1` only, usage row
`U2` referencing the absent subscriber `S2`. -/
theorem C9_orphan_usage_removed_witness :
    ("U2" : String) ∉ validUsageIds
        [⟨"S1", "Dubai", "Prepaid", "Active", 0, none⟩]
        [⟨"U1", "S1", 5, none, false⟩, ⟨"U2", "S2", 5, none, false⟩] ∧
    (⟨"U2", "S2", 5, none, false⟩ : UsageRecord) ∉
      (fix_impossible_values
        ⟨[⟨"S1", "Dubai", "Prepaid", "Active", 0, none⟩],
          [⟨"U1", "S1", 5, none, false⟩, ⟨"U2", "S2", 5, none, false⟩],
          [], [], []⟩).usage :=
  C9_orphan_usage_removed
    ⟨[⟨"S1", "Dubai", "Prepaid", "Active", 0, none⟩],
      [⟨"U1", "S1", 5, none, false⟩, ⟨"U2", "S2", 5, none, false⟩],
      [], [], []⟩
    ⟨"U2", "S2", 5, none, false⟩
    (by decide) (by decide) (by decide)
